import Mathlib

/-!
Verification of the LesserPanda physics core (World / Body / CollisionSolver)
and the fixed-step game scheduler (engine/game.js), via a shallow embedding.

JavaScript numbers are modeled as exact rationals.  The transcendental
primitives `Math.sqrt`, `Math.cos`, `Math.sin`, `Math.atan2`, `Math.pow`
are not exactly computable on rationals, so they are carried as an
uninterpreted bundle of functions (`JsMath`); every theorem below is
proved for an arbitrary interpretation of that bundle, hence in
particular for the true real-valued one.  Fallible operations (field
reads on a JavaScript `null`, i.e. a thrown `TypeError`) are modeled
with `Except Unit`.
-/

/-- Uninterpreted transcendental primitives of the JavaScript `Math`
object, plus `Math.pow`.  All results below hold for every
interpretation of these functions. -/
structure JsMath where
  sqrt : ℚ → ℚ
  cos : ℚ → ℚ
  sin : ℚ → ℚ
  atan2 : ℚ → ℚ → ℚ
  pow : ℚ → ℚ → ℚ

/-- A concrete interpretation used by witnesses; the theorems never
depend on the values of the primitives. -/
def mathZero : JsMath := ⟨fun _ => 0, fun _ => 0, fun _ => 0, fun _ _ => 0, fun _ _ => 0⟩

/-- Modelled from the spec: the 2D vector value type of engine/vector
(not under src/): a pair of numbers with componentwise operations. -/
structure Vector where
  x : ℚ
  y : ℚ
deriving DecidableEq

/-- Modelled from the spec: Euclidean distance of engine/vector, a
`Math.sqrt` of the squared componentwise difference. -/
def Vector.distance (M : JsMath) (v u : Vector) : ℚ :=
  M.sqrt ((v.x - u.x) ^ 2 + (v.y - u.y) ^ 2)

/-- Modelled from the spec: the angle operation of engine/vector, the
`atan2` angle from `v` to `u` (spec section 4.3: `angleFrom`). -/
def Vector.angle (M : JsMath) (v u : Vector) : ℚ :=
  M.atan2 (u.y - v.y) (u.x - v.x)

/-- Modelled from the spec: `Math.clamp` (an engine extension not under
src/), clamping a value into `[lo, hi]` (spec section 4.1 step 5). -/
def clamp (v lo hi : ℚ) : ℚ := min (max v lo) hi

/-- A shape as produced by the `Rectangle` / `Circle` constructors of
the physics module.  `Rectangle` carries `width`/`height`, `Circle`
carries `radius`; the other fields are JavaScript `undefined`. -/
inductive Shape where
  | rectangle (width height : ℚ)
  | circle (radius : ℚ)
deriving DecidableEq

/-- The JavaScript read `shape.width`: `undefined` (`none`) on circles. -/
def Shape.width : Shape → Option ℚ
  | .rectangle w _ => some w
  | .circle _ => none

/-- The JavaScript read `shape.height`: `undefined` (`none`) on circles. -/
def Shape.heightO : Shape → Option ℚ
  | .rectangle _ h => some h
  | .circle _ => none

/-- The JavaScript read `shape.radius`: `undefined` (`none`) on rectangles. -/
def Shape.radius : Shape → Option ℚ
  | .rectangle _ _ => none
  | .circle r => some r

/-- JavaScript truthiness of a possibly-`undefined` number: `undefined`
and `0` are falsy.  (Rationals have no NaN.) -/
def truthyO : Option ℚ → Bool
  | none => false
  | some q => decide (q ≠ 0)

/-- The physics `Body`.  The nullable `world` back-reference is modeled
by the owning world gravity vector (`worldGravity`), the only part of
the world that `Body.update` reads; `none` is a `null` world.  The
transient `_collides` scratch list is modeled as an explicit result of
the collide pass rather than a stored field. -/
structure Body where
  worldGravity : Option Vector := none
  shape : Option Shape := none
  position : Vector := ⟨0, 0⟩
  last : Vector := ⟨0, 0⟩
  velocity : Vector := ⟨0, 0⟩
  velocityLimit : Vector := ⟨400, 400⟩
  mass : ℚ := 0
  collisionGroup : Option ℤ := none
  collideAgainst : List ℤ := []
  force : Vector := ⟨0, 0⟩
  damping : ℚ := 0
deriving DecidableEq

deriving instance DecidableEq for Except

/-- The `Body` constructor called with no overriding properties: every
field keeps its documented default (in particular `velocityLimit`
defaults to `(400, 400)`). -/
def Body.mkDefault : Body := {}

/-- The rectangle-vs-rectangle branch of `hitTest`: the negated
disjunction of the four separating comparisons, all strict overlap
(touching edges are not overlapping). -/
def rectOverlap (ap : Vector) (aw ah : ℚ) (bp : Vector) (bw bh : ℚ) : Bool :=
  !(decide (ap.y + ah / 2 ≤ bp.y - bh / 2) ||
    decide (ap.y - ah / 2 ≥ bp.y + bh / 2) ||
    decide (ap.x - aw / 2 ≥ bp.x + bw / 2) ||
    decide (ap.x + aw / 2 ≤ bp.x - bw / 2))

/-- The rectangle-vs-circle branch of `hitTest`: clamp the circle
center into the rectangle, compare squared distance to the clamped
point against the squared radius (strict). -/
def rectCircleOverlap (rp : Vector) (rw rh : ℚ) (cp : Vector) (cr : ℚ) : Bool :=
  let x := max (rp.x - rw / 2) (min (rp.x + rw / 2) cp.x)
  let y := max (rp.y - rh / 2) (min (rp.y + rh / 2) cp.y)
  decide ((cp.x - x) ^ 2 + (cp.y - y) ^ 2 < cr * cr)

/-- `CollisionSolver.prototype.hitTest`.  The branch structure mirrors
the lazy field accesses of the source: `a.shape.width` is always read
(throwing on a `null` shape); `b.shape` is only dereferenced when the
reads of `a.shape` did not already short-circuit the conditions, so a
`null` `b.shape` throws exactly when `a` has a truthy `width` or a
truthy `radius`. -/
def hitTest (M : JsMath) (a b : Body) : Except Unit Bool :=
  match a.shape with
  | none => .error ()
  | some sa =>
    if truthyO sa.width then
      match b.shape with
      | none => .error ()
      | some sb =>
        if truthyO sb.width then
          .ok (rectOverlap a.position (sa.width.getD 0) (sa.heightO.getD 0)
                b.position (sb.width.getD 0) (sb.heightO.getD 0))
        else if truthyO sb.radius then
          .ok (rectCircleOverlap a.position (sa.width.getD 0) (sa.heightO.getD 0)
                b.position (sb.radius.getD 0))
        else .ok false
    else if truthyO sa.radius then
      match b.shape with
      | none => .error ()
      | some sb =>
        if truthyO sb.radius then
          .ok (decide (sa.radius.getD 0 + sb.radius.getD 0 >
                Vector.distance M a.position b.position))
        else if truthyO sb.width then
          .ok (rectCircleOverlap b.position (sb.width.getD 0) (sb.heightO.getD 0)
                a.position (sa.radius.getD 0))
        else .ok false
    else .ok false

/-- The argument passed to the `collide(other, arg)` capability of a
body: a direction string, an angle number, or nothing (the inside
case). -/
inductive CollideArg where
  | down
  | up
  | right
  | left
  | angle (a : ℚ)
  | undef
deriving DecidableEq

/-- `CollisionSolver.prototype.hitResponse`.  Only `a` is ever moved.
The `collide` hook of the body is modeled by the pure predicate
`accept` (the source default returns `true`).  A fallthrough without a
`return` yields JavaScript `undefined`, modeled as `false`.  Field
access on a `null` shape throws, with the same laziness as `hitTest`. -/
def hitResponse (M : JsMath) (accept : Body → Body → CollideArg → Bool)
    (a b : Body) : Except Unit (Body × Bool) :=
  match a.shape with
  | none => .error ()
  | some sa =>
    if truthyO sa.width then
      match b.shape with
      | none => .error ()
      | some sb =>
        if truthyO sb.width then
          let aw := sa.width.getD 0
          let ah := sa.heightO.getD 0
          let bw := sb.width.getD 0
          let bh := sb.heightO.getD 0
          if a.last.y + ah / 2 ≤ b.last.y - bh / 2 then
            if accept a b .down then
              .ok ({ a with position := ⟨a.position.x, b.position.y - bh / 2 - ah / 2⟩ }, true)
            else .ok (a, false)
          else if a.last.y - ah / 2 ≥ b.last.y + bh / 2 then
            if accept a b .up then
              .ok ({ a with position := ⟨a.position.x, b.position.y + bh / 2 + ah / 2⟩ }, true)
            else .ok (a, false)
          else if a.last.x + aw / 2 ≤ b.last.x - bw / 2 then
            if accept a b .right then
              .ok ({ a with position := ⟨b.position.x - bw / 2 - aw / 2, a.position.y⟩ }, true)
            else .ok (a, false)
          else if a.last.x - aw / 2 ≥ b.last.x + bw / 2 then
            if accept a b .left then
              .ok ({ a with position := ⟨b.position.x + bw / 2 + aw / 2, a.position.y⟩ }, true)
            else .ok (a, false)
          else
            if accept a b .undef then .ok (a, true) else .ok (a, false)
        else .ok (a, false)
    else if truthyO sa.radius then
      match b.shape with
      | none => .error ()
      | some sb =>
        if truthyO sb.radius then
          let ang := Vector.angle M b.position a.position
          if accept a b (.angle ang) then
            let dist := sa.radius.getD 0 + sb.radius.getD 0
            .ok ({ a with position := ⟨b.position.x + M.cos ang * dist,
                                       b.position.y + M.sin ang * dist⟩ }, true)
          else .ok (a, false)
        else .ok (a, false)
    else .ok (a, false)

/-- Steps 2 to 4 of `Body.prototype.update` (gravity, force, damping):
the velocity before the clamp.  When `mass` is nonzero the source reads
`this.world.gravity`, which throws on a `null` world. -/
def integrate (M : JsMath) (b : Body) (delta : ℚ) : Except Unit Vector :=
  match (if b.mass ≠ 0 then
          match b.worldGravity with
          | none => Except.error ()
          | some g => .ok (⟨b.velocity.x + g.x * b.mass * delta,
                            b.velocity.y + g.y * b.mass * delta⟩ : Vector)
        else .ok b.velocity) with
  | .error e => .error e
  | .ok v =>
    let v : Vector := ⟨v.x + b.force.x * delta, v.y + b.force.y * delta⟩
    let v : Vector :=
      if 0 < b.damping ∧ b.damping < 1 then
        ⟨v.x * M.pow (1 - b.damping) delta, v.y * M.pow (1 - b.damping) delta⟩
      else v
    .ok v

/-- `Body.prototype.update`: snapshot `last`, integrate the velocity,
clamp each axis whose `velocityLimit` component is positive, advance
the position. -/
def Body.update (M : JsMath) (b : Body) (delta : ℚ) : Except Unit Body :=
  match integrate M b delta with
  | .error e => .error e
  | .ok v =>
    let vx := if 0 < b.velocityLimit.x then clamp v.x (-b.velocityLimit.x) b.velocityLimit.x else v.x
    let vy := if 0 < b.velocityLimit.y then clamp v.y (-b.velocityLimit.y) b.velocityLimit.y else v.y
    .ok { b with last := b.position,
                 velocity := ⟨vx, vy⟩,
                 position := ⟨b.position.x + vx * delta, b.position.y + vy * delta⟩ }

/-! ## World.collide

Bodies are referenced by identity in the source; identity is modeled by
a numeric id, with a store mapping ids to body values.  During one
`collide(body)` call only the calling body is ever mutated (responses
move `a` only), so the calling body value is threaded separately from
the store of the other bodies. -/

/-- The collection loop of `World.prototype.collide` for one group: the
source iterates the group array from its last index down to 0, skipping
the calling body by reference identity, and pushes every member that
passes `hitTest`; so it is invoked here on the reversed group list and
returns the pushed ids in push order.  A `hitTest` throw propagates. -/
def collectHits (M : JsMath) (store : ℕ → Body) (a : Body) (aid : ℕ) :
    List ℕ → Except Unit (List ℕ)
  | [] => .ok []
  | bid :: rest =>
    if bid = aid then collectHits M store a aid rest
    else
      match hitTest M a (store bid) with
      | .error e => .error e
      | .ok hit =>
        match collectHits M store a aid rest with
        | .error e => .error e
        | .ok tail => .ok (if hit then bid :: tail else tail)

/-- The response loop of `World.prototype.collide` for one group: the
source iterates `_collides` from its last index down to 0, so it is
invoked here on the reversed collected list.  Each entry gets a
`hitResponse` (updating the calling body); a `true` response triggers
the `afterCollide` hook, a no-op by default.  Returns the updated
calling body and the ids in response-invocation order. -/
def respondHits (M : JsMath) (accept : Body → Body → CollideArg → Bool)
    (store : ℕ → Body) : Body → List ℕ → Except Unit (Body × List ℕ)
  | a, [] => .ok (a, [])
  | a, bid :: rest =>
    match hitResponse M accept a (store bid) with
    | .error e => .error e
    | .ok (a1, _) =>
      match respondHits M accept store a1 rest with
      | .error e => .error e
      | .ok (a2, resp) => .ok (a2, bid :: resp)

/-- The per-group trace of one `World.prototype.collide` call: the
group id, the content of `_collides` in push order, and the ids in the
order `hitResponse` was invoked on them. -/
structure GroupTrace where
  gid : ℤ
  collected : List ℕ
  responded : List ℕ
deriving DecidableEq

/-- One group pass of `World.prototype.collide`: clear `_collides`,
collect all hits (downward group iteration), then run the responses
(downward `_collides` iteration). -/
def collideGroup (M : JsMath) (accept : Body → Body → CollideArg → Bool)
    (store : ℕ → Body) (aid : ℕ) (a : Body) (group : List ℕ) :
    Except Unit (Body × List ℕ × List ℕ) :=
  match collectHits M store a aid group.reverse with
  | .error e => .error e
  | .ok collected =>
    match respondHits M accept store a collected.reverse with
    | .error e => .error e
    | .ok (a1, resp) => .ok (a1, collected, resp)

/-- The outer loop of `World.prototype.collide` over the groups listed
in `collideAgainst`; a group id absent from `collisionGroups` is
skipped (`if (!group) continue`). -/
def collideLoop (M : JsMath) (accept : Body → Body → CollideArg → Bool)
    (groups : ℤ → Option (List ℕ)) (store : ℕ → Body) (aid : ℕ) :
    Body → List ℤ → Except Unit (Body × List GroupTrace)
  | a, [] => .ok (a, [])
  | a, gid :: rest =>
    match groups gid with
    | none => collideLoop M accept groups store aid a rest
    | some mem =>
      match collideGroup M accept store aid a mem with
      | .error e => .error e
      | .ok (a1, collected, resp) =>
        match collideLoop M accept groups store aid a1 rest with
        | .error e => .error e
        | .ok (a2, trs) => .ok (a2, ⟨gid, collected, resp⟩ :: trs)

/-- `World.prototype.collide(body)`: iterate the `collideAgainst` list
of the calling body (never mutated during the call), returning the
updated calling body and the per-group traces. -/
def World.collide (M : JsMath) (accept : Body → Body → CollideArg → Bool)
    (groups : ℤ → Option (List ℕ)) (store : ℕ → Body) (aid : ℕ) :
    Except Unit (Body × List GroupTrace) :=
  collideLoop M accept groups store aid (store aid) (store aid).collideAgainst

/-! ## Ownership model for addBody / addTo

`World.prototype.addBody` and `Body.prototype.addTo` manipulate the
world back-reference, the owned `bodies` array and the collision-group
index.  Worlds and bodies are referenced by numeric ids over a store. -/

/-- The fields of a body read and written by the add/remove paths. -/
structure OwnedBody where
  world : Option ℕ := none
  removeFlag : Bool := false
  collisionGroup : Option ℤ := none
deriving DecidableEq

/-- The fields of a world read and written by the add/remove paths:
the owned `bodies` array and the `collisionGroups` index (a JavaScript
object, so an absent key reads as `undefined`). -/
structure OwnedWorld where
  bodies : List ℕ := []
  collisionGroups : ℤ → Option (List ℕ) := fun _ => none

/-- The store of all worlds and bodies, standing for the JavaScript
heap; ids model reference identity. -/
structure Sim where
  worldOf : ℕ → OwnedWorld
  bodyOf : ℕ → OwnedBody

/-- `World.prototype.addBodyCollision`: no-op unless `collisionGroup`
is a number; create the group list if absent; skip a body already in
the list; otherwise push. -/
def World.addBodyCollision (s : Sim) (wid bid : ℕ) : Sim :=
  match (s.bodyOf bid).collisionGroup with
  | none => s
  | some g =>
    let w := s.worldOf wid
    let lst := (w.collisionGroups g).getD []
    if bid ∈ lst then s
    else
      { s with worldOf := fun i =>
          if i = wid then
            { w with collisionGroups := fun g2 =>
                if g2 = g then some (lst ++ [bid]) else w.collisionGroups g2 }
          else s.worldOf i }

/-- `World.prototype.addBody`: unconditionally set the world
back-reference, clear the removal flag, push onto `bodies`, and
register the collision group. -/
def World.addBody (s : Sim) (wid bid : ℕ) : Sim :=
  let s1 : Sim :=
    { s with bodyOf := fun i =>
        if i = bid then { s.bodyOf bid with world := some wid, removeFlag := false }
        else s.bodyOf i }
  let s2 : Sim :=
    { s1 with worldOf := fun i =>
        if i = wid then { s1.worldOf wid with bodies := (s1.worldOf wid).bodies ++ [bid] }
        else s1.worldOf i }
  World.addBodyCollision s2 wid bid

/-- `Body.prototype.addTo(world)`: early-return when the body already
has a world, otherwise delegate to `World.prototype.addBody`. -/
def Body.addTo (s : Sim) (bid wid : ℕ) : Sim :=
  match (s.bodyOf bid).world with
  | some _ => s
  | none => World.addBody s wid bid

/-- A concrete heap used by the C3 counterexample and witness: world 0
already owns body 5 (`bodies = [5]`, back-reference set); other ids are
fresh defaults. -/
def sim0 : Sim :=
  { worldOf := fun i => if i = 0 then { bodies := [5] } else {},
    bodyOf := fun i => if i = 5 then { world := some 0 } else {} }

/-! ## The fixed-step scheduler (Game.prototype.run, engine/game.js) -/

/-- The persistent `updateInfo` record of `Game`.  `spiraling`, `count`
and `lastCount` only ever hold non-negative integers in the source and
are modeled as naturals. -/
structure UpdateInfo where
  spiraling : ℕ := 0
  last : ℚ := -1
  realDelta : ℚ := 0
  deltaTime : ℚ := 0
  lastCount : ℕ := 0
  step : ℚ := 0
  slowStep : ℚ := 0
  slowStepSec : ℚ := 0
  count : ℕ := 0
deriving DecidableEq

/-- The catch-up while-loop of `Game.prototype.run`
(`while (deltaTime >= step) { deltaTime -= step; fixedUpdate; count += 1 }`),
with an explicit structural fuel so the definition evaluates in the
kernel; `Game.run` passes fuel strictly larger than the number of
iterations the loop performs, which `catchUpF_exact` proves sufficient
(for a non-positive `step` and `step ≤ deltaTime` the source loop never
terminates; that configuration is outside every claim).  Returns the
remaining accumulator and the iteration count. -/
def catchUpF : ℕ → ℚ → ℚ → ℚ × ℕ
  | 0, acc, _ => (acc, 0)
  | fuel + 1, acc, step =>
    if step ≤ acc then
      let r := catchUpF fuel (acc - step) step
      (r.1, r.2 + 1)
    else (acc, 0)

/-- The opening of `Game.prototype.run`: set `realDelta` from the
timestamp difference when a previous timestamp exists, then record the
timestamp (`updateInfo.last = timestamp`). -/
def Game.runTick (u : UpdateInfo) (timestamp : ℚ) : UpdateInfo :=
  if u.last > 0 then { u with realDelta := timestamp - u.last, last := timestamp }
  else { u with last := timestamp }

/-- The step size `1000.0 / this.desiredFPS`. -/
def Game.stepOf (desiredFPS : ℚ) : ℚ := 1000 / desiredFPS

/-- The accumulator after this tick adds its catch-up credit:
`deltaTime += Math.max(Math.min(step * 3, realDelta), 0)`. -/
def Game.accOf (desiredFPS : ℚ) (u : UpdateInfo) : ℚ :=
  u.deltaTime + max (min (Game.stepOf desiredFPS * 3) u.realDelta) 0

/-- The catch-up loop run on this tick: remaining accumulator and
iteration count (the fuel exceeds the floor, so by `catchUpF_exact` it
is never exhausted). -/
def Game.loopOf (desiredFPS : ℚ) (u : UpdateInfo) : ℚ × ℕ :=
  catchUpF (⌊Game.accOf desiredFPS u / Game.stepOf desiredFPS⌋₊ + 1)
    (Game.accOf desiredFPS u) (Game.stepOf desiredFPS)

/-- The non-spiraling branch of `Game.prototype.run`: recompute the
step sizes, accumulate the clamped credit, run the catch-up loop, and
update the spiral detection counters. -/
def Game.runNormal (desiredFPS speed : ℚ) (u : UpdateInfo) : UpdateInfo × ℕ :=
  ({ u with
      step := Game.stepOf desiredFPS,
      slowStep := Game.stepOf desiredFPS * speed,
      slowStepSec := Game.stepOf desiredFPS * (1 / 1000) * speed,
      deltaTime := (Game.loopOf desiredFPS u).1,
      spiraling :=
        if (Game.loopOf desiredFPS u).2 > u.lastCount then u.spiraling + 1
        else if (Game.loopOf desiredFPS u).2 < u.lastCount then 0
        else u.spiraling,
      lastCount := (Game.loopOf desiredFPS u).2,
      count := (Game.loopOf desiredFPS u).2 },
   (Game.loopOf desiredFPS u).2)

/-- `Game.prototype.run(timestamp)`: update `realDelta`/`last`; on a
spiral alert drop all pending time and skip the frame, otherwise run
the normal branch.  Returns the new record and the number of
`fixedUpdate` invocations this tick (the variable-rate `update` also
runs exactly once per tick, with `realDelta`; it does not touch this
record). -/
def Game.run (desiredFPS speed : ℚ) (u0 : UpdateInfo) (timestamp : ℚ) :
    UpdateInfo × ℕ :=
  if (Game.runTick u0 timestamp).spiraling > 1 then
    ({ Game.runTick u0 timestamp with deltaTime := 0, spiraling := 0 }, 0)
  else Game.runNormal desiredFPS speed (Game.runTick u0 timestamp)

/-- A concrete body store for the C2 counterexample and witness: body 0
(the caller, colliding against group 7) overlaps bodies 1 and 2; all
last positions put the caller inside both, so responses move nothing. -/
def store2 : ℕ → Body := fun i =>
  if i = 1 then { shape := some (.rectangle 10 10), position := ⟨3, 0⟩, last := ⟨3, 0⟩ }
  else if i = 2 then { shape := some (.rectangle 10 10), position := ⟨-3, 0⟩, last := ⟨-3, 0⟩ }
  else { shape := some (.rectangle 10 10), position := ⟨0, 0⟩, last := ⟨0, 0⟩,
         collideAgainst := [7] }

/-- The collision-group index for the C2 counterexample: group 7 holds
bodies 1 and 2 in insertion order. -/
def groups2 : ℤ → Option (List ℕ) := fun g => if g = 7 then some [1, 2] else none

/-! ## Scheduler lemmas -/

/-- The catch-up loop performs at most `n` iterations whenever the
accumulator is below `n + 1` steps, for any fuel. -/
theorem catchUpF_count_le (fuel : ℕ) : ∀ (n : ℕ) (acc step : ℚ), 0 < step →
    acc < (n + 1 : ℚ) * step → (catchUpF fuel acc step).2 ≤ n := by
  induction fuel with
  | zero => intro n acc step _ _; simp [catchUpF]
  | succ fuel ih =>
    intro n acc step hstep hacc
    by_cases h : step ≤ acc
    · match n with
      | 0 =>
        exfalso
        rw [Nat.cast_zero, zero_add, one_mul] at hacc
        linarith
      | n + 1 =>
        have hlt : acc - step < ((n : ℚ) + 1) * step := by
          push_cast at hacc
          nlinarith [hacc]
        have := ih n (acc - step) step hstep hlt
        simp only [catchUpF, if_pos h]
        omega
    · simp [catchUpF, if_neg h]

/-- With positive step and fuel strictly above the floor of
`acc / step`, the fueled loop computes exactly the source while-loop:
`⌊acc / step⌋₊` iterations, leaving `acc - step * ⌊acc / step⌋₊`.
This justifies the fuel `Game.run` passes. -/
theorem catchUpF_exact (fuel : ℕ) : ∀ (acc step : ℚ), 0 < step →
    ⌊acc / step⌋₊ < fuel →
    catchUpF fuel acc step = (acc - step * ⌊acc / step⌋₊, ⌊acc / step⌋₊) := by
  induction fuel with
  | zero => intro acc step _ h; exact absurd h (Nat.not_lt_zero _)
  | succ fuel ih =>
    intro acc step hstep hfuel
    by_cases h : step ≤ acc
    · have h1 : (1 : ℚ) ≤ acc / step := (one_le_div hstep).mpr h
      have hfl : 1 ≤ ⌊acc / step⌋₊ := (Nat.one_le_floor_iff _).mpr h1
      have hdiv : (acc - step) / step = acc / step - 1 := by
        field_simp
      have hsub : ⌊(acc - step) / step⌋₊ = ⌊acc / step⌋₊ - 1 := by
        rw [hdiv, Nat.floor_sub_one]
      have hrec := ih (acc - step) step hstep (by omega)
      simp only [catchUpF, if_pos h, hrec]
      have hcast : ((⌊acc / step⌋₊ - 1 : ℕ) : ℚ) = (⌊acc / step⌋₊ : ℚ) - 1 := by
        push_cast [hfl]
        ring
      rw [hsub]
      refine Prod.ext ?_ ?_
      · simp only [hcast]
        ring
      · simp only
        omega
    · have hz : ⌊acc / step⌋₊ = 0 :=
        Nat.floor_eq_zero.mpr ((div_lt_one hstep).mpr (lt_of_not_le h))
      simp [catchUpF, if_neg h, hz]

/-- The timestamp bookkeeping touches only `realDelta` and `last`. -/
theorem Game.runTick_fields (u : UpdateInfo) (t : ℚ) :
    (Game.runTick u t).spiraling = u.spiraling ∧
    (Game.runTick u t).deltaTime = u.deltaTime ∧
    (Game.runTick u t).count = u.count ∧
    (Game.runTick u t).lastCount = u.lastCount := by
  unfold Game.runTick
  by_cases hl : u.last > 0 <;> simp [hl]

/-- On a spiral-alert tick, `run` zeroes the accumulator and the spiral
counter, leaves `count` and `lastCount` untouched, and invokes no fixed
update. -/
theorem Game.run_reset (desiredFPS speed : ℚ) (u : UpdateInfo) (t : ℚ)
    (h : u.spiraling > 1) :
    (Game.run desiredFPS speed u t).1.count = u.count ∧
    (Game.run desiredFPS speed u t).1.lastCount = u.lastCount ∧
    (Game.run desiredFPS speed u t).1.spiraling = 0 ∧
    (Game.run desiredFPS speed u t).1.deltaTime = 0 ∧
    (Game.run desiredFPS speed u t).2 = 0 := by
  have ht := Game.runTick_fields u t
  unfold Game.run
  rw [if_pos (by rw [ht.1]; exact h)]
  exact ⟨ht.2.2.1, ht.2.2.2, rfl, rfl, rfl⟩

/-- On a normal tick, `run` stores the loop iteration count into both
`count` and `lastCount`, and bumps the spiral counter when that count
strictly exceeds the previous `lastCount`. -/
theorem Game.run_normal (desiredFPS speed : ℚ) (u : UpdateInfo) (t : ℚ)
    (h : ¬ u.spiraling > 1) :
    (Game.run desiredFPS speed u t).1.lastCount = (Game.run desiredFPS speed u t).1.count ∧
    ((Game.run desiredFPS speed u t).1.count > u.lastCount →
      (Game.run desiredFPS speed u t).1.spiraling = u.spiraling + 1) := by
  have ht := Game.runTick_fields u t
  unfold Game.run
  rw [if_neg (by rw [ht.1]; exact h)]
  unfold Game.runNormal
  refine ⟨rfl, fun hc => ?_⟩
  simp only at hc ⊢
  rw [ht.2.2.2, if_pos hc, ht.1]

/-- Claim C4: for a scheduler tick with desiredFPS 60 (step 1000/60),
accumulated time initially below one step, and a real delta of 1000
milliseconds, the fixed-update callback is invoked at most 3 times
during that tick, because at most three steps of catch-up credit are
added per tick. -/
theorem claim_C4_theorem (speed : ℚ) (u : UpdateInfo) (timestamp : ℚ)
    (hlast : 0 < u.last) (hdelta : timestamp - u.last = 1000)
    (hacc : u.deltaTime < 1000 / 60) :
    (Game.run 60 speed u timestamp).2 ≤ 3 := by
  unfold Game.run
  by_cases hs : (Game.runTick u timestamp).spiraling > 1
  · rw [if_pos hs]
    exact Nat.zero_le 3
  · rw [if_neg hs]
    unfold Game.runNormal
    simp only
    have hrt : (Game.runTick u timestamp).realDelta = 1000 := by
      unfold Game.runTick
      rw [if_pos hlast]
      simpa using hdelta
    have hdt : (Game.runTick u timestamp).deltaTime = u.deltaTime :=
      (Game.runTick_fields u timestamp).2.1
    unfold Game.loopOf
    refine catchUpF_count_le _ 3 _ _ (by norm_num [Game.stepOf]) ?_
    unfold Game.accOf
    rw [hrt, hdt]
    have hmin : max (min (Game.stepOf 60 * 3) 1000) 0 = 50 := by
      norm_num [Game.stepOf]
    rw [hmin]
    have : ((3 : ℕ) + 1 : ℚ) * Game.stepOf 60 = 200 / 3 := by
      norm_num [Game.stepOf]
    rw [this]
    linarith

attribute [local semireducible] Rat.add Rat.sub Rat.mul Rat.inv in
/-- Witness for C4 at a concrete tick record. -/
theorem claim_C4_witness :
    (Game.run 60 1 ({ last := 5 } : UpdateInfo) 1005).2 ≤ 3 :=
  claim_C4_theorem 1 { last := 5 } 1005 (by decide) (by decide) (by decide)

/-- Claim C5: whenever the stored fixed-update iteration count
(`updateInfo.count`, with its invariant `lastCount = count` holding
between ticks) strictly increases on two consecutive ticks, the next
tick hard-resets the accumulator and the spiral counter to zero. -/
theorem claim_C5_theorem (fps speed : ℚ) (s : UpdateInfo) (t1 t2 t3 : ℚ)
    (hinv : s.lastCount = s.count)
    (h1 : (Game.run fps speed s t1).1.count > s.count)
    (h2 : (Game.run fps speed (Game.run fps speed s t1).1 t2).1.count >
          (Game.run fps speed s t1).1.count) :
    (Game.run fps speed (Game.run fps speed (Game.run fps speed s t1).1 t2).1 t3).1.deltaTime = 0 ∧
    (Game.run fps speed (Game.run fps speed (Game.run fps speed s t1).1 t2).1 t3).1.spiraling = 0 := by
  set s1 := (Game.run fps speed s t1).1 with hs1
  set s2 := (Game.run fps speed s1 t2).1 with hs2
  have hns : ¬ s.spiraling > 1 := by
    intro hsp
    have := (Game.run_reset fps speed s t1 hsp).1
    rw [← hs1] at this
    omega
  have hn1 := Game.run_normal fps speed s t1 hns
  rw [← hs1] at hn1
  have hsp1 : s1.spiraling = s.spiraling + 1 := hn1.2 (by rw [hinv]; exact h1)
  have hlc1 : s1.lastCount = s1.count := hn1.1
  have hns1 : ¬ s1.spiraling > 1 := by
    intro hsp
    have := (Game.run_reset fps speed s1 t2 hsp).1
    rw [← hs2] at this
    omega
  have hn2 := Game.run_normal fps speed s1 t2 hns1
  rw [← hs2] at hn2
  have hsp2 : s2.spiraling = s1.spiraling + 1 := hn2.2 (by rw [hlc1]; exact h2)
  have h2big : s2.spiraling > 1 := by omega
  have hr := Game.run_reset fps speed s2 t3 h2big
  exact ⟨hr.2.2.2.1, hr.2.2.1⟩

attribute [local semireducible] Rat.add Rat.sub Rat.mul Rat.inv in
/-- Witness for C5: a concrete three-tick run whose first two ticks
strictly increase the iteration count (1 then 2 fixed updates), with
the third tick zeroing the accumulator and spiral counter.
Rational arithmetic is made reducible locally so the record evaluates
in the kernel. -/
theorem claim_C5_witness :
    (Game.run 60 1 (Game.run 60 1 (Game.run 60 1 ({ last := 1 } : UpdateInfo) 21).1 61).1 100).1.deltaTime = 0 ∧
    (Game.run 60 1 (Game.run 60 1 (Game.run 60 1 ({ last := 1 } : UpdateInfo) 21).1 61).1 100).1.spiraling = 0 :=
  claim_C5_theorem 60 1 { last := 1 } 21 61 100 (by decide) (by decide) (by decide)

/-! ## Claims C3, C1, C9 -/

/-- Counterexample for C3 as stated: calling `World.addBody` directly
on a body that already belongs to the world inserts it into `bodies` a
second time, and calling it for a different world re-targets the
ownership, so "adding a body that already belongs to a world" is not a
no-op in general. -/
theorem claim_C3_counterexample :
    ((World.addBody sim0 0 5).worldOf 0).bodies = [5, 5] ∧
    ((World.addBody sim0 1 5).bodyOf 5).world = some 1 ∧
    ([5, 5] : List ℕ) ≠ [5] := by
  refine ⟨rfl, rfl, by decide⟩

/-- Claim C3 amended: adding through `Body.addTo` is a no-op when the
body already has an owning world (first owner wins, nothing inserted);
the unguarded `World.addBody` itself does not check ownership. -/
theorem claim_C3_theorem (s : Sim) (bid wid w0 : ℕ)
    (h : (s.bodyOf bid).world = some w0) :
    Body.addTo s bid wid = s := by
  unfold Body.addTo
  rw [h]

/-- Witness for C3: `addTo` leaves the concrete heap untouched for the
already-owned body 5. -/
theorem claim_C3_witness :
    Body.addTo sim0 5 3 = sim0 ∧ (sim0.bodyOf 5).world = some 0 :=
  ⟨claim_C3_theorem sim0 5 3 0 (by decide), by decide⟩

/-- Counterexample for C1 as stated: a hit test against a body whose
`shape` is `null` throws a `TypeError` (the source reads
`a.shape.width` unconditionally); it does not silently return false. -/
theorem claim_C1_counterexample :
    hitTest mathZero Body.mkDefault { shape := some (Shape.rectangle 10 10) } = .error () ∧
    hitTest mathZero Body.mkDefault { shape := some (Shape.rectangle 10 10) } ≠ .ok false := by
  refine ⟨rfl, ?_⟩
  rw [show hitTest mathZero Body.mkDefault { shape := some (Shape.rectangle 10 10) } =
      .error () from rfl]
  simp

/-- Claim C1 amended: when both bodies have non-null shapes and no
dispatch case matches (neither a rect-rect, circle-circle, nor mixed
rect-circle pairing with truthy dimensions), `hitTest` silently returns
false; but when the first body has a null shape it throws a `TypeError`
instead (and likewise for the second body when the first has a truthy
width or radius). -/
theorem claim_C1_theorem :
    (∀ (M : JsMath) (a b : Body) (sa sb : Shape),
      a.shape = some sa → b.shape = some sb →
      ¬(truthyO sa.width = true ∧ truthyO sb.width = true) →
      ¬(truthyO sa.radius = true ∧ truthyO sb.radius = true) →
      ¬(truthyO sa.width = true ∧ truthyO sb.radius = true) →
      ¬(truthyO sa.radius = true ∧ truthyO sb.width = true) →
      hitTest M a b = .ok false) ∧
    (∀ (M : JsMath) (a b : Body), a.shape = none → hitTest M a b = .error ()) ∧
    (∀ (M : JsMath) (a b : Body) (sa : Shape),
      a.shape = some sa → b.shape = none →
      truthyO sa.width = true ∨ truthyO sa.radius = true →
      hitTest M a b = .error ()) := by
  refine ⟨?_, ?_, ?_⟩
  · intro M a b sa sb ha hb hww hrr hwr hrw
    unfold hitTest
    rw [ha, hb]
    by_cases h1 : truthyO sa.width
    · have h2 : truthyO sb.width = false := by
        by_cases h : truthyO sb.width = true
        · exact absurd ⟨h1, h⟩ hww
        · simpa using h
      have h3 : truthyO sb.radius = false := by
        by_cases h : truthyO sb.radius = true
        · exact absurd ⟨h1, h⟩ hwr
        · simpa using h
      simp [h1, h2, h3]
    · by_cases h4 : truthyO sa.radius
      · have h5 : truthyO sb.radius = false := by
          by_cases h : truthyO sb.radius = true
          · exact absurd ⟨h4, h⟩ hrr
          · simpa using h
        have h6 : truthyO sb.width = false := by
          by_cases h : truthyO sb.width = true
          · exact absurd ⟨h4, h⟩ hrw
          · simpa using h
        simp [h1, h4, h5, h6]
      · simp [h1, h4]
  · intro M a b h
    unfold hitTest
    rw [h]
  · intro M a b sa ha hb hdisj
    unfold hitTest
    rw [ha, hb]
    by_cases hw : truthyO sa.width
    · simp [hw]
    · rcases hdisj with h | h
      · exact absurd h hw
      · simp [hw, h]

/-- Witness for C1: a zero-width rectangle against a circle falls
through every dispatch case and reports false without error, while a
truthy-width rectangle hit-tested against a null shape throws. -/
theorem claim_C1_witness :
    (hitTest mathZero { shape := some (Shape.rectangle 0 5) }
      { shape := some (Shape.circle 3) } = .ok false) ∧
    (hitTest mathZero { shape := some (Shape.rectangle 2 5) } Body.mkDefault = .error ()) :=
  ⟨claim_C1_theorem.1 mathZero _ _ _ _ rfl rfl (by decide) (by decide) (by decide) (by decide),
   claim_C1_theorem.2.2 mathZero _ _ _ rfl rfl (Or.inl (by decide))⟩

/-- Counterexample for C9 as stated: `Body.update` on a body with a
`null` world and nonzero mass throws a `TypeError` (the source reads
`this.world.gravity`), so the update is not error-free for every body
state. -/
theorem claim_C9_counterexample :
    Body.update mathZero { mass := 1 } 1 = .error () := rfl

/-- Claim C9 amended: `Body.update` is a pure function of the body,
the delta and the math primitives (deterministic by construction, no
effect outside the returned body), and it never fails provided the
body has zero mass or a non-null world; with nonzero mass and a null
world the gravity read throws. -/
theorem claim_C9_theorem (M : JsMath) (b : Body) (delta : ℚ)
    (h : b.mass = 0 ∨ b.worldGravity.isSome) :
    ∃ b2, Body.update M b delta = .ok b2 := by
  unfold Body.update integrate
  rcases h with h | h
  · rw [if_neg (by simp [h])]
    exact ⟨_, rfl⟩
  · by_cases hm : b.mass ≠ 0
    · rw [if_pos hm]
      rcases Option.isSome_iff_exists.mp h with ⟨g, hg⟩
      rw [hg]
      exact ⟨_, rfl⟩
    · rw [if_neg hm]
      exact ⟨_, rfl⟩

/-- Witness for C9: the default body (zero mass) updates without
error. -/
theorem claim_C9_witness :
    ∃ b2, Body.update mathZero Body.mkDefault 1 = .ok b2 :=
  claim_C9_theorem mathZero Body.mkDefault 1 (Or.inl rfl)

/-! ## Claims C7, C10: the velocity clamp -/

/-- Clamping into a symmetric positive interval bounds the absolute
value. -/
theorem abs_clamp_le (x L : ℚ) (h : 0 < L) : |clamp x (-L) L| ≤ L := by
  rw [abs_le]
  unfold clamp
  exact ⟨le_min (le_max_right _ _) (by linarith), min_le_right _ _⟩

/-- Characterization of a successful `Body.update` from a successful
integration. -/
theorem Body.update_ok (M : JsMath) (b : Body) (delta : ℚ) (v : Vector)
    (hint : integrate M b delta = .ok v) :
    Body.update M b delta = .ok { b with
      last := b.position,
      velocity := ⟨(if 0 < b.velocityLimit.x then
                      clamp v.x (-b.velocityLimit.x) b.velocityLimit.x else v.x),
                   (if 0 < b.velocityLimit.y then
                      clamp v.y (-b.velocityLimit.y) b.velocityLimit.y else v.y)⟩,
      position := ⟨b.position.x + (if 0 < b.velocityLimit.x then
                      clamp v.x (-b.velocityLimit.x) b.velocityLimit.x else v.x) * delta,
                   b.position.y + (if 0 < b.velocityLimit.y then
                      clamp v.y (-b.velocityLimit.y) b.velocityLimit.y else v.y) * delta⟩ } := by
  unfold Body.update
  rw [hint]

/-- Claim C7: after one integration update, a positive velocity limit
on an axis bounds the absolute velocity on that axis, and a zero limit
leaves that axis exactly the unclamped integrated velocity. -/
theorem claim_C7_theorem (M : JsMath) (b : Body) (delta : ℚ) (v : Vector) (b2 : Body)
    (hint : integrate M b delta = .ok v)
    (hupd : Body.update M b delta = .ok b2) :
    (0 < b.velocityLimit.x → |b2.velocity.x| ≤ b.velocityLimit.x) ∧
    (0 < b.velocityLimit.y → |b2.velocity.y| ≤ b.velocityLimit.y) ∧
    (b.velocityLimit.x = 0 → b2.velocity.x = v.x) ∧
    (b.velocityLimit.y = 0 → b2.velocity.y = v.y) := by
  rw [Body.update_ok M b delta v hint] at hupd
  injection hupd with h
  subst h
  refine ⟨fun hx => ?_, fun hy => ?_, fun hx0 => ?_, fun hy0 => ?_⟩
  · show |if 0 < b.velocityLimit.x then
        clamp v.x (-b.velocityLimit.x) b.velocityLimit.x else v.x| ≤ b.velocityLimit.x
    rw [if_pos hx]
    exact abs_clamp_le _ _ hx
  · show |if 0 < b.velocityLimit.y then
        clamp v.y (-b.velocityLimit.y) b.velocityLimit.y else v.y| ≤ b.velocityLimit.y
    rw [if_pos hy]
    exact abs_clamp_le _ _ hy
  · show (if 0 < b.velocityLimit.x then
        clamp v.x (-b.velocityLimit.x) b.velocityLimit.x else v.x) = v.x
    rw [if_neg (by rw [hx0]; exact lt_irrefl 0)]
  · show (if 0 < b.velocityLimit.y then
        clamp v.y (-b.velocityLimit.y) b.velocityLimit.y else v.y) = v.y
    rw [if_neg (by rw [hy0]; exact lt_irrefl 0)]

attribute [local semireducible] Rat.add Rat.sub Rat.mul Rat.inv in
/-- Witness for C7: a body with limits `(5, 0)` and velocity
`(100, 100)` gets its x velocity clamped to 5 and its y velocity
passed through unclamped. -/
theorem claim_C7_witness :
    (0 < ({ velocity := ⟨100, 100⟩, velocityLimit := ⟨5, 0⟩ } : Body).velocityLimit.x →
      |({ velocity := ⟨5, 100⟩, velocityLimit := ⟨5, 0⟩, last := ⟨0, 0⟩,
          position := ⟨5, 100⟩ } : Body).velocity.x| ≤
        ({ velocity := ⟨100, 100⟩, velocityLimit := ⟨5, 0⟩ } : Body).velocityLimit.x) ∧
    (0 < ({ velocity := ⟨100, 100⟩, velocityLimit := ⟨5, 0⟩ } : Body).velocityLimit.y →
      |({ velocity := ⟨5, 100⟩, velocityLimit := ⟨5, 0⟩, last := ⟨0, 0⟩,
          position := ⟨5, 100⟩ } : Body).velocity.y| ≤
        ({ velocity := ⟨100, 100⟩, velocityLimit := ⟨5, 0⟩ } : Body).velocityLimit.y) ∧
    (({ velocity := ⟨100, 100⟩, velocityLimit := ⟨5, 0⟩ } : Body).velocityLimit.x = 0 →
      ({ velocity := ⟨5, 100⟩, velocityLimit := ⟨5, 0⟩, last := ⟨0, 0⟩,
          position := ⟨5, 100⟩ } : Body).velocity.x = (⟨100, 100⟩ : Vector).x) ∧
    (({ velocity := ⟨100, 100⟩, velocityLimit := ⟨5, 0⟩ } : Body).velocityLimit.y = 0 →
      ({ velocity := ⟨5, 100⟩, velocityLimit := ⟨5, 0⟩, last := ⟨0, 0⟩,
          position := ⟨5, 100⟩ } : Body).velocity.y = (⟨100, 100⟩ : Vector).y) :=
  claim_C7_theorem mathZero { velocity := ⟨100, 100⟩, velocityLimit := ⟨5, 0⟩ } 1
    ⟨100, 100⟩
    { velocity := ⟨5, 100⟩, velocityLimit := ⟨5, 0⟩, last := ⟨0, 0⟩, position := ⟨5, 100⟩ }
    (by decide) (by decide)

/-- Claim C10: a body constructed without an explicit `velocityLimit`
keeps the default `(400, 400)`, the limit survives updates, and after
every successful update both velocity components are bounded by 400 in
absolute value. -/
theorem claim_C10_theorem :
    Body.mkDefault.velocityLimit = (⟨400, 400⟩ : Vector) ∧
    ∀ (M : JsMath) (b : Body) (delta : ℚ) (b2 : Body),
      b.velocityLimit = ⟨400, 400⟩ → Body.update M b delta = .ok b2 →
      |b2.velocity.x| ≤ 400 ∧ |b2.velocity.y| ≤ 400 ∧ b2.velocityLimit = ⟨400, 400⟩ := by
  refine ⟨rfl, fun M b delta b2 hlim hupd => ?_⟩
  have hx : b.velocityLimit.x = 400 := by rw [hlim]
  have hy : b.velocityLimit.y = 400 := by rw [hlim]
  cases hint : integrate M b delta with
  | error e =>
    unfold Body.update at hupd
    rw [hint] at hupd
    exact absurd hupd (by simp)
  | ok v =>
    rw [Body.update_ok M b delta v hint] at hupd
    injection hupd with h
    subst h
    refine ⟨?_, ?_, hlim⟩
    · show |if 0 < b.velocityLimit.x then
          clamp v.x (-b.velocityLimit.x) b.velocityLimit.x else v.x| ≤ 400
      rw [hx, if_pos (by norm_num)]
      exact abs_clamp_le _ _ (by norm_num)
    · show |if 0 < b.velocityLimit.y then
          clamp v.y (-b.velocityLimit.y) b.velocityLimit.y else v.y| ≤ 400
      rw [hy, if_pos (by norm_num)]
      exact abs_clamp_le _ _ (by norm_num)

attribute [local semireducible] Rat.add Rat.sub Rat.mul Rat.inv in
/-- Witness for C10: the default body updates to itself and stays
within the default bound. -/
theorem claim_C10_witness :
    |Body.mkDefault.velocity.x| ≤ 400 ∧ |Body.mkDefault.velocity.y| ≤ 400 ∧
    Body.mkDefault.velocityLimit = (⟨400, 400⟩ : Vector) :=
  claim_C10_theorem.2 mathZero Body.mkDefault 1 Body.mkDefault rfl (by decide)

/-! ## Claims C6, C8: solver geometry -/

/-- A rect-vs-rect `hitTest` can only report a hit when both widths are
truthy: a falsy width on either side short-circuits every dispatch case
to false. -/
theorem hitTest_rect_true_widths (M : JsMath) (a b : Body) (wa ha wb hb : ℚ)
    (hsa : a.shape = some (.rectangle wa ha)) (hsb : b.shape = some (.rectangle wb hb))
    (h : hitTest M a b = .ok true) : wa ≠ 0 ∧ wb ≠ 0 := by
  unfold hitTest at h
  rw [hsa, hsb] at h
  simp only [Shape.width, Shape.radius, truthyO, decide_eq_true_eq] at h
  by_cases h1 : wa = 0
  · rw [if_neg (by simpa using h1)] at h
    simp at h
  · rw [if_pos (by simpa using h1)] at h
    by_cases h2 : wb = 0
    · rw [if_neg (by simpa using h2)] at h
      simp at h
    · exact ⟨h1, h2⟩

/-- The AABB overlap test is symmetric: each separating comparison of
`(a, b)` is literally one of the separating comparisons of `(b, a)`. -/
theorem rectOverlap_comm (ap : Vector) (aw ah : ℚ) (bp : Vector) (bw bh : ℚ) :
    rectOverlap ap aw ah bp bw bh = rectOverlap bp bw bh ap aw ah := by
  unfold rectOverlap
  congr 1
  simp only [ge_iff_le]
  simp [Bool.or_comm, Bool.or_left_comm, Bool.or_assoc]

/-- The squared-difference argument fed to `Math.sqrt` by the distance
operation is symmetric. -/
theorem Vector.distance_comm (M : JsMath) (v u : Vector) :
    Vector.distance M v u = Vector.distance M u v := by
  unfold Vector.distance
  congr 1
  ring

/-- Claim C8: `hitTest` is symmetric on rectangle pairs and on circle
pairs, and two exactly edge-adjacent rectangles (right edge of `a`
equal to left edge of `b`) report no overlap. -/
theorem claim_C8_theorem :
    (∀ (M : JsMath) (a b : Body) (wa ha wb hb : ℚ),
      a.shape = some (.rectangle wa ha) → b.shape = some (.rectangle wb hb) →
      hitTest M a b = hitTest M b a) ∧
    (∀ (M : JsMath) (a b : Body) (ra rb : ℚ),
      a.shape = some (.circle ra) → b.shape = some (.circle rb) →
      hitTest M a b = hitTest M b a) ∧
    (∀ (M : JsMath) (a b : Body) (wa ha wb hb : ℚ),
      a.shape = some (.rectangle wa ha) → b.shape = some (.rectangle wb hb) →
      a.position.x + wa / 2 = b.position.x - wb / 2 →
      hitTest M a b = .ok false) := by
  refine ⟨fun M a b wa ha wb hb hsa hsb => ?_,
          fun M a b ra rb hsa hsb => ?_,
          fun M a b wa ha wb hb hsa hsb hadj => ?_⟩
  · unfold hitTest
    rw [hsa, hsb]
    by_cases hwa : wa = 0 <;> by_cases hwb : wb = 0 <;>
      simp [Shape.width, Shape.radius, truthyO, hwa, hwb, rectOverlap_comm]
  · unfold hitTest
    rw [hsa, hsb]
    by_cases hra : ra = 0 <;> by_cases hrb : rb = 0 <;>
      simp [Shape.width, Shape.radius, truthyO, hra, hrb,
        Vector.distance_comm M a.position b.position, add_comm ra rb]
  · unfold hitTest
    rw [hsa, hsb]
    by_cases hwa : wa = 0 <;> by_cases hwb : wb = 0 <;>
      simp [Shape.width, Shape.radius, truthyO, hwa, hwb]
    unfold rectOverlap
    rw [show decide (a.position.x + wa / 2 ≤ b.position.x - wb / 2) = true from
      decide_eq_true (le_of_eq hadj)]
    simp

/-- Claim C6: for overlapping rectangles with the falling-from-above
last-position relation, `hitResponse` consults the `collide` hook with
direction DOWN; on acceptance it snaps `a` flush on top of `b` (moving
only `a`, only in y) and afterwards the pair no longer overlaps. -/
theorem claim_C6_theorem (M : JsMath) (accept : Body → Body → CollideArg → Bool)
    (a b : Body) (wa ha wb hb : ℚ)
    (hsa : a.shape = some (.rectangle wa ha))
    (hsb : b.shape = some (.rectangle wb hb))
    (hover : hitTest M a b = .ok true)
    (hdown : a.last.y + ha / 2 ≤ b.last.y - hb / 2) :
    hitResponse M accept a b =
      .ok (if accept a b .down
            then ({ a with position := ⟨a.position.x, b.position.y - hb / 2 - ha / 2⟩ }, true)
            else (a, false)) ∧
    hitTest M { a with position := ⟨a.position.x, b.position.y - hb / 2 - ha / 2⟩ } b
      = .ok false := by
  obtain ⟨hwa, hwb⟩ := hitTest_rect_true_widths M a b wa ha wb hb hsa hsb hover
  constructor
  · unfold hitResponse
    rw [hsa, hsb]
    simp only [Shape.width, Shape.heightO, Shape.radius, truthyO, Option.getD_some,
      decide_eq_true_eq]
    rw [if_pos hwa, if_pos hwb, if_pos hdown]
    by_cases hacc : accept a b .down <;> simp [hacc]
  · unfold hitTest
    rw [show ({ a with position := ⟨a.position.x, b.position.y - hb / 2 - ha / 2⟩ } : Body).shape
        = a.shape from rfl, hsa, hsb]
    simp only [Shape.width, Shape.heightO, Shape.radius, truthyO, Option.getD_some,
      decide_eq_true_eq]
    rw [if_pos hwa, if_pos hwb]
    unfold rectOverlap
    rw [show decide (({ a with position := ⟨a.position.x, b.position.y - hb / 2 - ha / 2⟩ } : Body).position.y
          + ha / 2 ≤ b.position.y - hb / 2) = true from decide_eq_true (by simp)]
    simp

attribute [local semireducible] Rat.add Rat.sub Rat.mul Rat.inv in
/-- Witness for C8: symmetry on a concrete overlapping rectangle pair
and a concrete circle pair, and no hit for exactly edge-adjacent
rectangles. -/
theorem claim_C8_witness :
    hitTest mathZero { shape := some (.rectangle 4 4), position := ⟨0, 0⟩ }
        { shape := some (.rectangle 4 4), position := ⟨1, 1⟩ } =
      hitTest mathZero { shape := some (.rectangle 4 4), position := ⟨1, 1⟩ }
        { shape := some (.rectangle 4 4), position := ⟨0, 0⟩ } ∧
    hitTest mathZero { shape := some (.circle 2), position := ⟨0, 0⟩ }
        { shape := some (.circle 3), position := ⟨1, 0⟩ } =
      hitTest mathZero { shape := some (.circle 3), position := ⟨1, 0⟩ }
        { shape := some (.circle 2), position := ⟨0, 0⟩ } ∧
    hitTest mathZero { shape := some (.rectangle 4 4), position := ⟨0, 0⟩ }
        { shape := some (.rectangle 4 4), position := ⟨4, 0⟩ } = .ok false :=
  ⟨claim_C8_theorem.1 mathZero _ _ 4 4 4 4 rfl rfl,
   claim_C8_theorem.2.1 mathZero _ _ 2 3 rfl rfl,
   claim_C8_theorem.2.2 mathZero _ _ 4 4 4 4 rfl rfl (by decide)⟩

attribute [local semireducible] Rat.add Rat.sub Rat.mul Rat.inv in
/-- Witness for C6: a 10-by-10 rectangle that fell from strictly above
a 10-by-10 rectangle at `(0, 5)` and now overlaps it is pushed flush on
top of it and no longer overlaps. -/
theorem claim_C6_witness :
    hitResponse mathZero (fun _ _ _ => true)
        { shape := some (.rectangle 10 10), position := ⟨0, -3⟩, last := ⟨0, -20⟩ }
        { shape := some (.rectangle 10 10), position := ⟨0, 5⟩, last := ⟨0, 5⟩ } =
      .ok (if (fun (_ _ : Body) (_ : CollideArg) => true)
            { shape := some (.rectangle 10 10), position := ⟨0, -3⟩, last := ⟨0, -20⟩ }
            { shape := some (.rectangle 10 10), position := ⟨0, 5⟩, last := ⟨0, 5⟩ } .down
          then ({ ({ shape := some (.rectangle 10 10), position := ⟨0, -3⟩,
                     last := ⟨0, -20⟩ } : Body) with
                  position := ⟨(⟨0, -3⟩ : Vector).x, (⟨0, 5⟩ : Vector).y - 10 / 2 - 10 / 2⟩ }, true)
          else ({ shape := some (.rectangle 10 10), position := ⟨0, -3⟩, last := ⟨0, -20⟩ }, false)) ∧
    hitTest mathZero
        { ({ shape := some (.rectangle 10 10), position := ⟨0, -3⟩, last := ⟨0, -20⟩ } : Body) with
          position := ⟨(⟨0, -3⟩ : Vector).x, (⟨0, 5⟩ : Vector).y - 10 / 2 - 10 / 2⟩ }
        { shape := some (.rectangle 10 10), position := ⟨0, 5⟩, last := ⟨0, 5⟩ } = .ok false :=
  claim_C6_theorem mathZero (fun _ _ _ => true)
    { shape := some (.rectangle 10 10), position := ⟨0, -3⟩, last := ⟨0, -20⟩ }
    { shape := some (.rectangle 10 10), position := ⟨0, 5⟩, last := ⟨0, 5⟩ }
    10 10 10 10 rfl rfl (by decide) (by decide)

/-! ## Claim C2: collect-then-respond -/

/-- A successful collection pass returns exactly the members of the
iterated list (already reversed by the caller) that are distinct from
the calling body and pass `hitTest` against the calling body value at
collection time, in iteration order. -/
theorem collectHits_filter (M : JsMath) (store : ℕ → Body) (a : Body) (aid : ℕ) :
    ∀ (l c : List ℕ), collectHits M store a aid l = .ok c →
      c = l.filter (fun bid =>
        decide (bid ≠ aid) && decide (hitTest M a (store bid) = .ok true)) := by
  intro l
  induction l with
  | nil =>
    intro c h
    simp only [collectHits] at h
    injection h with h
    simp [← h]
  | cons bid rest ih =>
    intro c h
    unfold collectHits at h
    by_cases hb : bid = aid
    · rw [if_pos hb] at h
      have ht := ih c h
      subst hb
      simp [List.filter_cons, ht]
    · rw [if_neg hb] at h
      cases hh : hitTest M a (store bid) with
      | error e =>
        rw [hh] at h
        exact absurd h (by simp)
      | ok hit =>
        rw [hh] at h
        cases hr : collectHits M store a aid rest with
        | error e =>
          rw [hr] at h
          exact absurd h (by simp)
        | ok tail =>
          rw [hr] at h
          injection h with h
          have ht := ih tail hr
          cases hit <;> simp [← h, List.filter_cons, hb, hh, ht]

/-- A successful response pass invokes `hitResponse` on exactly the
ids of the given list (already reversed by the caller), in order. -/
theorem respondHits_ids (M : JsMath) (accept : Body → Body → CollideArg → Bool)
    (store : ℕ → Body) :
    ∀ (l : List ℕ) (a a2 : Body) (resp : List ℕ),
      respondHits M accept store a l = .ok (a2, resp) → resp = l := by
  intro l
  induction l with
  | nil =>
    intro a a2 resp h
    simp only [respondHits] at h
    injection h with h
    simp [Prod.ext_iff] at h
    exact h.2
  | cons bid rest ih =>
    intro a a2 resp h
    unfold respondHits at h
    split at h
    · exact absurd h (by simp)
    · next a1 ok1 hh =>
      split at h
      · exact absurd h (by simp)
      · next a3 resp3 hr =>
        injection h with h
        simp only [Prod.mk.injEq] at h
        rw [← h.2, ih a1 a3 resp3 hr]

/-- Claim C2 amended: for each group pass, `World.collide` first
collects exactly the other members that pass `hitTest` against the
calling body value as of the start of the group (so responses cannot
change what counted as a hit), and then invokes `hitResponse` on the
collected members in reverse collection order (the collection loop
walks the group backwards, the response loop walks `_collides`
backwards, i.e. in group insertion order). -/
theorem claim_C2_theorem (M : JsMath) (accept : Body → Body → CollideArg → Bool)
    (store : ℕ → Body) (aid : ℕ) (a : Body) (group : List ℕ)
    (a1 : Body) (collected resp : List ℕ)
    (h : collideGroup M accept store aid a group = .ok (a1, collected, resp)) :
    collected = group.reverse.filter (fun bid =>
      decide (bid ≠ aid) && decide (hitTest M a (store bid) = .ok true)) ∧
    resp = collected.reverse := by
  unfold collideGroup at h
  split at h
  · exact absurd h (by simp)
  · next col hc =>
    split at h
    · exact absurd h (by simp)
    · next a2 resp2 hr =>
      injection h with h
      simp only [Prod.mk.injEq] at h
      obtain ⟨-, hcol, hresp⟩ := h
      rw [← hcol, ← hresp]
      exact ⟨collectHits_filter M store a aid group.reverse col hc,
             respondHits_ids M accept store col.reverse a a2 resp2 hr⟩

attribute [local semireducible] Rat.add Rat.sub Rat.mul Rat.inv in
/-- Counterexample for C2 as stated: in the concrete world `store2` /
`groups2`, the caller collects hits in the order `[2, 1]` (backward
group walk) but runs the responses in the order `[1, 2]` — the reverse
of the collection order, not the same order. -/
theorem claim_C2_counterexample :
    World.collide mathZero (fun _ _ _ => true) groups2 store2 0 =
      .ok (store2 0, [⟨7, [2, 1], [1, 2]⟩]) ∧
    ([1, 2] : List ℕ) ≠ [2, 1] := by
  exact ⟨by decide, by decide⟩

attribute [local semireducible] Rat.add Rat.sub Rat.mul Rat.inv in
/-- Witness for C2: the single-group pass of the concrete world
satisfies the amended description — collection is the backward-walk
filter, responses run on its reverse. -/
theorem claim_C2_witness :
    ([2, 1] : List ℕ) = ([1, 2] : List ℕ).reverse.filter (fun bid =>
      decide (bid ≠ 0) && decide (hitTest mathZero (store2 0) (store2 bid) = .ok true)) ∧
    ([1, 2] : List ℕ) = ([2, 1] : List ℕ).reverse :=
  claim_C2_theorem mathZero (fun _ _ _ => true) store2 0 (store2 0) [1, 2]
    (store2 0) [2, 1] [1, 2] (by decide)

/-- The invariant backing the C5 hypothesis: `lastCount = count` holds
in the initial record and is preserved by every tick (a normal tick
writes the same value to both, a reset tick touches neither). -/
theorem Game.run_countInv (desiredFPS speed : ℚ) (u : UpdateInfo) (t : ℚ)
    (h : u.lastCount = u.count) :
    (Game.run desiredFPS speed u t).1.lastCount
      = (Game.run desiredFPS speed u t).1.count ∧
    ({} : UpdateInfo).lastCount = ({} : UpdateInfo).count := by
  refine ⟨?_, rfl⟩
  by_cases hs : u.spiraling > 1
  · have hr := Game.run_reset desiredFPS speed u t hs
    rw [hr.2.1, hr.1, h]
  · exact (Game.run_normal desiredFPS speed u t hs).1
